import Mathlib

/-!
Verification development for the Pythonista Tools installer (`ptinstaller.py`).

The Python source is shallowly embedded: the two regular expressions used by
the listing parser and the source classifier are translated into executable
character-level matchers (each pattern is deterministic up to one greedy
backtracking point, which is implemented as a longest-split search), the
filesystem is an explicit state (a list of directory paths and a list of
(path, contents) files), network access is a function parameter, and Python
exceptions become `Except` values.
-/

set_option autoImplicit false

namespace PTInstaller

/-! ## Basic string machinery -/

/-- Drop a literal character sequence from the front of `cs`; `none` when it
does not start with that sequence. -/
def dropLit : List Char → List Char → Option (List Char)
  | [], cs => some cs
  | p :: ps, c :: cs => if p = c then dropLit ps cs else none
  | _ :: _, [] => none

/-- The regex wildcard `.`: consume one character that is not a newline. -/
def dropAny1 : List Char → Option (List Char)
  | c :: cs => if c = '\n' then none else some cs
  | [] => none

/-- Consume `http://` or `https://` (the `http(s?)://` prefix shared by both
URL patterns; the optional group is greedy, which agrees with trying the
`https://` literal first). -/
def dropScheme (cs : List Char) : Option (List Char) :=
  match dropLit "https://".toList cs with
  | some r => some r
  | none => dropLit "http://".toList cs

/-- Longest split of `l` as `p ++ '/' :: s` with `s ≠ []` (the greedy
backtracking point of `(.+)/(.+)`: group one extends to the last slash that
still leaves a character for group two). -/
def splitLastSlash : List Char → Option (List Char × List Char)
  | [] => none
  | a :: t =>
    match splitLastSlash t with
    | some (p, s) => some (a :: p, s)
    | none => if a = '/' && !t.isEmpty then some ([], t) else none

/-- Longest split of `l` as `p ++ ' ' :: '|' :: s` (the greedy backtracking
point of `(.*) \|` in the table-row pattern). -/
def lastSplitSpaceBar : List Char → Option (List Char × List Char)
  | [] => none
  | [_] => none
  | a :: b :: t =>
    match lastSplitSpaceBar (b :: t) with
    | some (p, s) => some (a :: p, s)
    | none => if a = ' ' && b = '|' then some ([], t) else none

/-- The part of `l` after the first occurrence of the (non-empty) separator
`sep`; `none` when `sep` does not occur in `l`. -/
def afterFirstOcc (sep : List Char) : List Char → Option (List Char)
  | [] => if sep.isEmpty then some [] else none
  | l@(_ :: t) =>
    if sep.isPrefixOf l then some (l.drop sep.length)
    else afterFirstOcc sep t

/-- Python `name.split(sep, 1)[-1]`: the part after the first occurrence of
`sep`, or the whole string when `sep` does not occur. -/
def splitOnceLast (sep s : String) : String :=
  match afterFirstOcc sep.toList s.toList with
  | some r => ⟨r⟩
  | none => s

/-- Whether `sub` occurs as a substring of `s`. -/
def containsSubstr (s sub : String) : Bool :=
  (afterFirstOcc sub.toList s.toList).isSome

/-- `os.path.dirname`: everything before the last slash (empty when there is
no slash). -/
def dirname (p : String) : String :=
  let rev := p.toList.reverse
  match rev.dropWhile (fun c => c != '/') with
  | [] => ""
  | _ :: t => ⟨t.reverse⟩

/-- `os.path.basename`: everything after the last slash. -/
def basename (p : String) : String :=
  ⟨(p.toList.reverse.takeWhile (fun c => c != '/')).reverse⟩

/-- The root part of `os.path.splitext`: strip the extension beginning at the
last dot, unless that dot is the leading character. -/
def splitextRoot (s : String) : String :=
  let rev := s.toList.reverse
  match rev.dropWhile (fun c => c != '.') with
  | [] => s
  | _ :: t => if t.isEmpty then s else ⟨t.reverse⟩

/-! ## The two listing-parser regular expressions

`PATTERN_NAME_URL_DESCRIPTION = ^\| +\[([^]]+)\] *\[([^]]*)\][^|]+\| (.*) \|`
and `PATTERN_NAME_URL = ^\[([^]]+)\]: *(.*)`, both compiled with
`re.MULTILINE` and used through `findall`.  `^` anchors every match at a line
start; the negated character classes may cross newlines, `(.*)` may not.
Both patterns are deterministic except for the final `(.*) \|` of the row
pattern, which greedily takes the last ` |` on the line. -/

/-- Match `PATTERN_NAME_URL_DESCRIPTION` at the head of `cs`; on success
return `((name, url, description), rest-after-match)`. -/
def matchRow (cs : List Char) : Option ((String × String × String) × List Char) :=
  match cs with
  | '|' :: r1 =>
    let sp := r1.takeWhile (fun c => c == ' ')
    let r2 := r1.dropWhile (fun c => c == ' ')
    if sp.isEmpty then none else
    match r2 with
    | '[' :: r3 =>
      let nm := r3.takeWhile (fun c => c != ']')
      let r4 := r3.dropWhile (fun c => c != ']')
      if nm.isEmpty then none else
      match r4 with
      | ']' :: r5 =>
        let r6 := r5.dropWhile (fun c => c == ' ')
        match r6 with
        | '[' :: r7 =>
          let u := r7.takeWhile (fun c => c != ']')
          let r8 := r7.dropWhile (fun c => c != ']')
          match r8 with
          | ']' :: r9 =>
            let mid := r9.takeWhile (fun c => c != '|')
            let r10 := r9.dropWhile (fun c => c != '|')
            if mid.isEmpty then none else
            match r10 with
            | '|' :: ' ' :: r11 =>
              let line := r11.takeWhile (fun c => c != '\n')
              let rest := r11.drop line.length
              match lastSplitSpaceBar line with
              | some (d, s) => some ((⟨nm⟩, ⟨u⟩, ⟨d⟩), s ++ rest)
              | none => none
            | _ => none
          | _ => none
        | _ => none
      | _ => none
    | _ => none
  | _ => none

/-- Match `PATTERN_NAME_URL` at the head of `cs`; on success return
`((label, url), rest-after-match)`. -/
def matchDef (cs : List Char) : Option ((String × String) × List Char) :=
  match cs with
  | '[' :: r1 =>
    let nm := r1.takeWhile (fun c => c != ']')
    let r2 := r1.dropWhile (fun c => c != ']')
    if nm.isEmpty then none else
    match r2 with
    | ']' :: ':' :: r3 =>
      let r4 := r3.dropWhile (fun c => c == ' ')
      let line := r4.takeWhile (fun c => c != '\n')
      let rest := r4.drop line.length
      some ((⟨nm⟩, ⟨line⟩), rest)
    | _ => none
  | _ => none

/-- `re.findall` for a `^`-anchored MULTILINE pattern: scan left to right, try
the matcher at every line start, and resume after the end of each match
(matches are non-overlapping; neither matcher ever consumes a newline as its
last character, so a position right after a match is never a line start).
`fuel` bounds the number of scan steps; each step strictly shortens the text,
so `text.length` steps suffice. -/
def scanAux {α : Type} (matcher : List Char → Option (α × List Char)) :
    Nat → Bool → List Char → List α
  | 0, _, _ => []
  | _ + 1, _, [] => []
  | fuel + 1, atLineStart, cs =>
    match cs with
    | [] => []
    | c :: rest =>
      if atLineStart then
        match matcher cs with
        | some (m, remaining) => m :: scanAux matcher fuel false remaining
        | none => scanAux matcher fuel (c == '\n') rest
      else
        scanAux matcher fuel (c == '\n') rest

/-- `PATTERN_NAME_URL_DESCRIPTION.findall(md)`. -/
def findallRows (md : String) : List (String × String × String) :=
  scanAux matchRow md.length true md.toList

/-- `PATTERN_NAME_URL.findall(md)`. -/
def findallDefs (md : String) : List (String × String) :=
  scanAux matchDef md.length true md.toList

/-! ## The listing parser (`PythonistaToolsRepo.get_tools_from_md`) -/

/-- One value of the tools dict: `{"url": ..., "description": ...}`. -/
structure ToolContent where
  url : String
  description : String
deriving DecidableEq

/-- Python dict assignment `d[k] = v`: replace the value in place when the key
is present, append otherwise. -/
def pyDictSet {β : Type} (d : List (String × β)) (k : String) (v : β) :
    List (String × β) :=
  if d.any (fun p => p.1 == k) then
    d.map (fun p => if p.1 == k then (p.1, v) else p)
  else d ++ [(k, v)]

/-- Python `str.strip()`: drop whitespace from both ends. -/
def pyStrip (s : String) : String :=
  ⟨((s.toList.dropWhile Char.isWhitespace).reverse.dropWhile Char.isWhitespace).reverse⟩

/-- First loop of `get_tools_from_md`: collect the table rows into the working
dict, stripping the description (`description.strip()`). -/
def collectRows (rows : List (String × String × String)) : List (String × ToolContent) :=
  rows.foldl (fun d r => pyDictSet d r.1 ⟨r.2.1, pyStrip r.2.2⟩) []

/-- Body of the second loop of `get_tools_from_md` for one definition line
`(label, url)`: when the label is itself a tool name, assign the url to that
tool directly; otherwise substitute the url into every tool whose url equals
the bare label and into every tool whose description equals the bracketed
label. -/
def applyDef (d : List (String × ToolContent)) (label url : String) :
    List (String × ToolContent) :=
  if d.any (fun p => p.1 == label) then
    d.map (fun p => if p.1 == label then (p.1, { p.2 with url := url }) else p)
  else
    d.map (fun p =>
      let c1 := if p.2.url == label then { p.2 with url := url } else p.2
      let c2 := if c1.description == "[" ++ label ++ "]" then { c1 with description := url } else c1
      (p.1, c2))

/-- Second loop of `get_tools_from_md` over all definition lines. -/
def applyDefs (d : List (String × ToolContent)) (defs : List (String × String)) :
    List (String × ToolContent) :=
  defs.foldl (fun d pr => applyDef d pr.1 pr.2) d

/-- The pure part of `get_tools_from_md` on an already-fetched document:
collect rows, resolve definition lines, then drop every tool whose url is
empty (`if v["url"]`, Python string truthiness). -/
def parse_md (md : String) : List (String × ToolContent) :=
  (applyDefs (collectRows (findallRows md)) (findallDefs md)).filter
    (fun p => !(p.2.url == ""))

/-- `PythonistaToolsRepo`: its only state is `self.cached_tools_dict`. -/
structure RepoState where
  cached_tools_dict : List (String × List (String × ToolContent))
deriving DecidableEq

/-- `PythonistaToolsRepo.get_tools_from_md`, with the network as a function
`net` and the number of issued fetches reported as the last component.

The Python body reuses the name `url` as the loop variable of both `findall`
loops, shadowing the parameter: after the loops, `url` holds the url group of
the last definition line (or, when there are none, of the last table row, or
the original parameter when the document matched nothing).  The cache write
`self.cached_tools_dict[url] = ...` and the final read therefore use that
shadowed value as the key, and the function returns the value it just
stored. -/
def PythonistaToolsRepo.get_tools_from_md (net : String → String) (st : RepoState)
    (url : String) : List (String × ToolContent) × RepoState × Nat :=
  match st.cached_tools_dict.lookup url with
  | some cached => (cached, st, 0)
  | none =>
    let md := net url
    let rows := findallRows md
    let tools_dict := collectRows rows
    let defs := findallDefs md
    let resolved := applyDefs tools_dict defs
    let url2 :=
      match defs.getLast?, rows.getLast? with
      | some dl, _ => dl.2
      | none, some rw => rw.2.1
      | none, none => url
    let filtered := resolved.filter (fun p => !(p.2.url == ""))
    (filtered, ⟨pyDictSet st.cached_tools_dict url2 filtered⟩, 1)

/-! ## Source classifier

`GitHubRepoInstaller.PATTERN_USER_REPO = ^https?://github.com/(.+)/(.+)` and
`GistInstaller.PATTERN_GIST_ID = http(s?)://gist.github.com/([0-9a-zA-Z]*)/([0-9a-f]*)`,
both applied with `re.match` (anchored at the start, no requirement to reach
the end).  The unescaped dots in the host names are wildcards. -/

/-- The groups `(owner, repo)` captured by `PATTERN_USER_REPO`, or `none` when
the pattern does not match. -/
def githubUserRepoGroups (url : String) : Option (String × String) := do
  let cs := url.toList
  let cs ← dropScheme cs
  let cs ← dropLit "github".toList cs
  let cs ← dropAny1 cs
  let cs ← dropLit "com/".toList cs
  match splitLastSlash (cs.takeWhile (fun c => c != '\n')) with
  | some (g1, g2) => if g1.isEmpty then none else some (⟨g1⟩, ⟨g2⟩)
  | none => none

/-- The Python value produced for a successful repo-pattern match.  The source
returns `m.groups` — the bound method object, not the result of calling it —
so the runtime value is a method object carrying the match, never the
`(owner, repo)` tuple. -/
inductive GroupsVal where
  | boundMethod (owner repo : String)
  | tuple (owner repo : String)
deriving DecidableEq

/-- Python tuple unpacking `a, b = v`: succeeds only on a pair; unpacking a
bound method object (or `None`) raises `TypeError`, modelled as `none`. -/
def pyUnpack2 : GroupsVal → Option (String × String)
  | .tuple a b => some (a, b)
  | .boundMethod _ _ => none

/-- `GitHubRepoInstaller.get_github_user_repo`: `m.groups if m else None`.
Note the missing call parentheses in the source: on a match the returned
value is the bound `groups` method, not the captured pair. -/
def GitHubRepoInstaller.get_github_user_repo (url : String) : Option GroupsVal :=
  (githubUserRepoGroups url).map (fun p => .boundMethod p.1 p.2)

/-- `[0-9a-zA-Z]`. -/
def isPyAlnum (c : Char) : Bool := c.isAlphanum

/-- `[0-9a-f]`. -/
def isHexLower (c : Char) : Bool := c.isDigit || ('a' ≤ c && c ≤ 'f')

/-- `GistInstaller.get_gist_id`: group 3 of `PATTERN_GIST_ID` (the hex path
segment after the user segment), or `none` when the pattern does not match. -/
def GistInstaller.get_gist_id (url : String) : Option String := do
  let cs := url.toList
  let cs ← dropScheme cs
  let cs ← dropLit "gist".toList cs
  let cs ← dropAny1 cs
  let cs ← dropLit "github".toList cs
  let cs ← dropAny1 cs
  let cs ← dropLit "com/".toList cs
  let cs := cs.dropWhile isPyAlnum
  match cs with
  | '/' :: r => some ⟨r.takeWhile isHexLower⟩
  | _ => none

/-- Python truthiness of an optional string: `None` and the empty string are falsy. -/
def pyTruthyStrOpt : Option String → Bool
  | none => false
  | some s => !(s == "")

/-! ## Filesystem model -/

/-- The filesystem: a set of existing directory paths and a map of file path
to contents, both as lists. -/
structure FS where
  dirs : List String
  files : List (String × String)
deriving DecidableEq

/-- `os.path.exists`: the path is a directory or a file. -/
def pathExists (fs : FS) (p : String) : Bool :=
  fs.dirs.contains p || fs.files.any (fun f => f.1 == p)

/-- The proper ancestors of a path: the prefix before each slash. -/
def ancestorPrefixes (p : String) : List String :=
  (List.range p.length).filterMap (fun i =>
    if p.toList.get? i = some '/' then some ⟨p.toList.take i⟩ else none)

/-- `os.makedirs`: create the path and every missing ancestor. -/
def mkdirs (fs : FS) (p : String) : FS :=
  { fs with
    dirs := (ancestorPrefixes p ++ [p]).foldl
      (fun ds d => if d ∈ ds then ds else ds ++ [d]) fs.dirs }

/-- Python exceptions that the embedded code can raise. -/
inductive PyErr where
  | invalidGistURL
  | gistDownload
  | multipleFilesInGist
  | noFilesInGist
  | typeError
  | ioError
  | notADirectory
deriving DecidableEq

/-- `open(p, "w")` followed by a full write: requires the parent directory to
exist (Python does not create it implicitly), overwrites an existing file. -/
def openWrite (fs : FS) (p data : String) : Except PyErr FS :=
  if fs.dirs.contains (dirname p) then
    .ok { fs with files := pyDictSet fs.files p data }
  else .error .ioError

/-- Whether `d` is `p` itself or lies strictly below the directory `p`. -/
def underPath (p d : String) : Bool :=
  d == p || (p ++ "/").toList.isPrefixOf d.toList

/-- `shutil.rmtree`: remove the directory `p` and everything below it; raises
when `p` is not a directory. -/
def rmtree (fs : FS) (p : String) : Except PyErr FS :=
  if fs.dirs.contains p then
    .ok ⟨fs.dirs.filter (fun d => !underPath p d),
         fs.files.filter (fun f => !underPath p f.1)⟩
  else .error .notADirectory

/-! ## Gist installer -/

/-- One entry of the gist metadata `files` map; `language` is absent when the
JSON has no such key (`file_info.get("language", None)`). -/
structure GistFile where
  filename : String
  content : String
  language : Option String
deriving DecidableEq

/-- The gist-metadata endpoint: `none` models a fetch or decode failure
(anything the bare `except:` of the source would catch). -/
def GistApi : Type := String → Option (List GistFile)

/-- `GistInstaller.download`: resolve the gist id, fetch the metadata, and
select the single file whose declared language is exactly `"Python"`.  The
second component counts network fetches. -/
def GistInstaller.download (api : GistApi) (url : String) :
    Except PyErr (String × String) × Nat :=
  match GistInstaller.get_gist_id url with
  | some gist_id =>
    if gist_id == "" then (.error .invalidGistURL, 0)
    else
      match api ("https://api.github.com/gists/" ++ gist_id) with
      | none => (.error .gistDownload, 1)
      | some files =>
        let py_files := files.filter (fun f => f.language == some "Python")
        if py_files.length > 1 then (.error .multipleFilesInGist, 1)
        else
          match py_files with
          | [] => (.error .noFilesInGist, 1)
          | f :: _ => (.ok (f.filename, f.content), 1)
  | none => (.error .invalidGistURL, 0)

/-- `GistInstaller.install`: download, then write the selected file into the
target folder; any raised error leaves the filesystem unchanged. -/
def GistInstaller.install (api : GistApi) (url target_folder : String) (fs : FS) :
    Except PyErr Unit × FS :=
  match (GistInstaller.download api url).1 with
  | .error e => (.error e, fs)
  | .ok (filename, content) =>
    match openWrite fs (target_folder ++ "/" ++ filename) content with
    | .ok fs1 => (.ok (), fs1)
    | .error e => (.error e, fs)

/-! ## Repository archive installer -/

/-- Inner loop of `GitHubRepoInstaller.install`: place one archive entry,
after stripping `base_dir` (`name.split(base_dir, 1)[-1]`).  An entry whose
stripped name is empty is skipped; a name ending in a slash creates a
directory (if absent); any other name is opened for writing, which fails when
its parent directory does not exist. -/
def extractLoop (base_dir target_folder : String) :
    List (String × String) → FS → Except PyErr Unit × FS
  | [], fs => (.ok (), fs)
  | (name, data) :: rest, fs =>
    let n := splitOnceLast base_dir name
    if n == "" then extractLoop base_dir target_folder rest fs
    else
      let fname := target_folder ++ "/" ++ n
      if fname.toList.getLast? == some '/' then
        let d : String := ⟨fname.toList.dropLast⟩
        let fs1 := if pathExists fs d then fs else mkdirs fs d
        extractLoop base_dir target_folder rest fs1
      else
        match openWrite fs fname data with
        | .ok fs1 => extractLoop base_dir target_folder rest fs1
        | .error e => (.error e, fs)

/-- The extraction step of `GitHubRepoInstaller.install` on an opened
archive: `base_dir` is the zip basename without extension plus a slash
(for `<repo>-master.zip` this is `<repo>-master/`). -/
def extract_zip (tmp_zipfile target_folder : String) (entries : List (String × String))
    (fs : FS) : Except PyErr Unit × FS :=
  let base_dir := splitextRoot (basename tmp_zipfile) ++ "/"
  extractLoop base_dir target_folder entries fs

/-- `GitHubRepoInstaller.install` as reached from the dispatcher: `download`
begins with `user_name, repo_name = self.get_github_user_repo(url)`, and
`get_github_user_repo` returns `None` or the uncalled bound method
`m.groups`; tuple-unpacking either value raises `TypeError` before any
network or filesystem effect, so the install path always fails. -/
def GitHubRepoInstaller.install (url _target_folder : String) (fs : FS) :
    Except PyErr Unit × FS :=
  match GitHubRepoInstaller.get_github_user_repo url with
  | none => (.error .typeError, fs)
  | some g =>
    match pyUnpack2 g with
    | none => (.error .typeError, fs)
    | some _ =>
      -- not reachable: get_github_user_repo never builds a tuple value
      (.error .typeError, fs)

/-! ## Install/uninstall orchestration (`PythonistaToolsInstaller`) -/

/-- `os.path.expanduser("~/Documents/bin")`, modelled as the literal path
(the home-directory expansion is environment state the claims do not
depend on). -/
def INSTALLATION_ROOT : String := "~/Documents/bin"

/-- `PythonistaToolsInstaller.get_target_folder`. -/
def PythonistaToolsInstaller.get_target_folder (category_name tool_name : String) :
    String :=
  INSTALLATION_ROOT ++ "/" ++ category_name ++ "/" ++ tool_name

/-- `PythonistaToolsInstaller.is_tool_installed`. -/
def PythonistaToolsInstaller.is_tool_installed (fs : FS)
    (category_name tool_name : String) : Bool :=
  pathExists fs (PythonistaToolsInstaller.get_target_folder category_name tool_name)

/-- The user-visible outcome of `_install`: which HUD alert is shown. -/
inductive Outcome where
  | installedHud
  | failedHud
deriving DecidableEq

/-- `PythonistaToolsInstaller._install`: dispatch on the classifier (gist
first, then repo pattern, else open the URL in the external browser — the
third component records the browser-opened URL).  Every exception is caught
at this boundary and reported as the failure HUD. -/
def PythonistaToolsInstaller.installDispatch (api : GistApi) (url target_folder : String)
    (fs : FS) : Outcome × FS × Option String :=
  if pyTruthyStrOpt (GistInstaller.get_gist_id url) then
    match GistInstaller.install api url target_folder fs with
    | (.ok _, fs1) => (.installedHud, fs1, none)
    | (.error _, fs1) => (.failedHud, fs1, none)
  else if (GitHubRepoInstaller.get_github_user_repo url).isSome then
    match GitHubRepoInstaller.install url target_folder fs with
    | (.ok _, fs1) => (.installedHud, fs1, none)
    | (.error _, fs1) => (.failedHud, fs1, none)
  else
    (.installedHud, fs, some url)

/-- `PythonistaToolsInstaller.install`: create the target folder when absent,
then dispatch. -/
def PythonistaToolsInstaller.install (api : GistApi)
    (category_name tool_name tool_url : String) (fs : FS) :
    Outcome × FS × Option String :=
  let target_folder := PythonistaToolsInstaller.get_target_folder category_name tool_name
  let fs1 := if pathExists fs target_folder then fs else mkdirs fs target_folder
  PythonistaToolsInstaller.installDispatch api tool_url target_folder fs1

/-- `PythonistaToolsInstaller.uninstall`: remove the target folder when it
exists; the success HUD (`Bool` result `true`) is shown unconditionally. -/
def PythonistaToolsInstaller.uninstall (category_name tool_name : String) (fs : FS) :
    Except PyErr (Bool × FS) :=
  let target_folder := PythonistaToolsInstaller.get_target_folder category_name tool_name
  if pathExists fs target_folder then
    match rmtree fs target_folder with
    | .ok fs1 => .ok (true, fs1)
    | .error e => .error e
  else .ok (true, fs)

/-! ## Helper lemmas -/

/-- Membership is preserved and created by the duplicate-avoiding fold used in
`mkdirs`. -/
theorem mem_foldl_insertNew {l ds : List String} {x : String}
    (h : x ∈ ds ∨ x ∈ l) :
    x ∈ l.foldl (fun ds d => if d ∈ ds then ds else ds ++ [d]) ds := by
  induction l generalizing ds with
  | nil => simpa using h.resolve_right (by simp)
  | cons d t ih =>
    simp only [List.foldl_cons]
    apply ih
    rcases h with h | h
    · left
      by_cases hd : d ∈ ds <;> simp [hd, h]
    · rcases List.mem_cons.mp h with rfl | h
      · left
        by_cases hd : x ∈ ds <;> simp [hd]
      · right
        exact h

/-- After `mkdirs fs p`, the path `p` exists. -/
theorem pathExists_mkdirs_self (fs : FS) (p : String) :
    pathExists (mkdirs fs p) p = true := by
  have hmem : p ∈ (mkdirs fs p).dirs :=
    mem_foldl_insertNew (Or.inr (by simp))
  simp only [pathExists, Bool.or_eq_true, List.contains, List.elem_iff]
  exact Or.inl hmem

/-- After a successful `rmtree fs p`, the path `p` no longer exists. -/
theorem pathExists_rmtree_self {fs fs1 : FS} {p : String}
    (h : rmtree fs p = .ok fs1) : pathExists fs1 p = false := by
  unfold rmtree at h
  by_cases hc : fs.dirs.contains p = true
  · rw [if_pos hc] at h
    cases h
    have hself : underPath p p = true := by
      simp [underPath]
    simp only [pathExists, Bool.or_eq_false_iff]
    constructor
    · simp only [List.contains, Bool.not_eq_true]
      cases he : List.elem p (fs.dirs.filter (fun d => !underPath p d)) with
      | false => rfl
      | true =>
        have := (List.mem_filter.mp (List.elem_iff.mp he)).2
        rw [hself] at this
        simp at this
    · rw [List.any_eq_false]
      intro f hf
      have hpred := (List.mem_filter.mp hf).2
      intro hfp
      rw [show f.1 = p from by simpa using hfp] at hpred
      rw [hself] at hpred
      simp at hpred
  · rw [if_neg hc] at h
    cases h

/-! ## Claims about the listing parser -/

/-- C1 counterexample: a tool whose reference label has no matching definition
line is NOT excluded from the returned mapping — the raw label stays behind as
its url.  The document has the single row `| [Foo][f] something | desc |` and
no definition lines, yet `Foo` is returned with url `f`. -/
theorem unresolved_label_tool_is_kept :
    ("Foo", (⟨"f", "desc"⟩ : ToolContent)) ∈ parse_md "| [Foo][f] something | desc |\n" ∧
    findallDefs "| [Foo][f] something | desc |\n" = [] := by
  constructor
  · decide
  · decide

/-- C1 (amended): every entry of the mapping returned by the listing parser
has a non-empty url — entries whose url slot is the empty string are dropped
by the final filter — but a tool whose non-empty label has no matching
definition is retained with the raw label as its url, not excluded. -/
theorem parse_md_entries_have_nonempty_url :
    (∀ (md : String) (p : String × ToolContent), p ∈ parse_md md → p.2.url ≠ "") ∧
    parse_md "| [Foo][f] something | desc |\n" = [("Foo", ⟨"f", "desc"⟩)] := by
  constructor
  · intro md p hp h0
    have hpred := (List.mem_filter.mp hp).2
    rw [h0] at hpred
    simp at hpred
  · decide

/-- C1 witness: the amended theorem applied to the concrete document. -/
theorem parse_md_entries_have_nonempty_url_witness :
    ("Foo", (⟨"f", "desc"⟩ : ToolContent)).2.url ≠ "" :=
  parse_md_entries_have_nonempty_url.1 "| [Foo][f] something | desc |\n"
    ("Foo", ⟨"f", "desc"⟩) (by decide)

/-- C8: in the document with table row `| [Foo][f] xx | [g] |` and definition
lines `[f]: http://x` and `[g]: http://y`, the parser resolves the url slot
through label `f` and the description slot through label `g`, returning the
single entry `Foo` with url `http://x` and description `http://y`. -/
theorem row_with_two_labels_resolves_both_slots :
    parse_md "| [Foo][f] xx | [g] |\n[f]: http://x\n[g]: http://y\n" =
      [("Foo", ⟨"http://x", "http://y"⟩)] := by
  decide

/-- C10: when a definition label is exactly the name of a collected tool, the
parser assigns the definition url directly to that tool, and every other tool
passes through this definition unchanged — even one whose url or description
field textually matches the label — because the cross-entry substitution
branch runs only when the label matches no tool name. -/
theorem applyDef_label_matching_tool_name (d : List (String × ToolContent))
    (label url : String) (h : d.any (fun p => p.1 == label) = true) :
    (∀ p ∈ d, p.1 ≠ label → p ∈ applyDef d label url) ∧
    (∀ p ∈ d, p.1 = label → (p.1, { p.2 with url := url }) ∈ applyDef d label url) := by
  unfold applyDef
  rw [if_pos h]
  constructor
  · intro p hp hne
    have hfix : (fun q : String × ToolContent =>
        if q.1 == label then (q.1, { q.2 with url := url }) else q) p = p := by
      simp [hne]
    exact hfix ▸ List.mem_map_of_mem _ hp
  · intro p hp he
    have hfix : (fun q : String × ToolContent =>
        if q.1 == label then (q.1, { q.2 with url := url }) else q) p
        = (p.1, { p.2 with url := url }) := by
      simp [he]
    exact hfix ▸ List.mem_map_of_mem _ hp

/-- C10 witness: label `A` names a tool, so tool `B` — whose url equals the
bare label and whose description equals the bracketed label — is untouched by
the definition `[A]: http://u`. -/
theorem applyDef_label_matching_tool_name_witness :
    ("B", (⟨"A", "[A]"⟩ : ToolContent)) ∈
      applyDef [("A", ⟨"x", "dx"⟩), ("B", ⟨"A", "[A]"⟩)] "A" "http://u" :=
  (applyDef_label_matching_tool_name [("A", ⟨"x", "dx"⟩), ("B", ⟨"A", "[A]"⟩)]
    "A" "http://u" (by decide)).1 ("B", ⟨"A", "[A]"⟩) (by decide) (by decide)

/-- C2: the parse cache is NOT keyed by the document source url.  The loop
variable `url` of the two findall loops shadows the parameter, so the cache
entry is stored under the url group of the last definition line.  On the
document `| [Foo][f] x | d |` + `[f]: http://u` fetched from `http://doc.md`,
the first call stores the result under key `http://u` and leaves no entry for
`http://doc.md`, and the second call with the same document url fetches from
the network again (fetch count 1, not 0). -/
theorem get_tools_from_md_refetches_same_url :
    ((PythonistaToolsRepo.get_tools_from_md
        (fun _ => "| [Foo][f] x | d |\n[f]: http://u\n") ⟨[]⟩ "http://doc.md").2.2 = 1) ∧
    ((PythonistaToolsRepo.get_tools_from_md
        (fun _ => "| [Foo][f] x | d |\n[f]: http://u\n") ⟨[]⟩
        "http://doc.md").2.1.cached_tools_dict.lookup "http://doc.md" = none) ∧
    ((PythonistaToolsRepo.get_tools_from_md
        (fun _ => "| [Foo][f] x | d |\n[f]: http://u\n") ⟨[]⟩
        "http://doc.md").2.1.cached_tools_dict.lookup "http://u"
      = some [("Foo", ⟨"http://u", "d"⟩)]) ∧
    ((PythonistaToolsRepo.get_tools_from_md
        (fun _ => "| [Foo][f] x | d |\n[f]: http://u\n")
        (PythonistaToolsRepo.get_tools_from_md
          (fun _ => "| [Foo][f] x | d |\n[f]: http://u\n") ⟨[]⟩ "http://doc.md").2.1
        "http://doc.md").2.2 = 1) := by
  refine ⟨by decide, by decide, by decide, by decide⟩

/-! ## Claims about the source classifier and installers -/

/-- C3: the gist and Unknown classifications behave as claimed, but on
`https://github.com/alice/tool` the value `get_github_user_repo` returns is
the bound method object `m.groups` carrying the captured groups — the source
omits the call parentheses — not the `("alice", "tool")` tuple, and
tuple-unpacking that value (as `GitHubRepoInstaller.download` immediately
does) fails. -/
theorem classifier_results_on_claimed_urls :
    GitHubRepoInstaller.get_github_user_repo "https://github.com/alice/tool"
      = some (.boundMethod "alice" "tool") ∧
    pyUnpack2 (GroupsVal.boundMethod "alice" "tool") = none ∧
    GistInstaller.get_gist_id "https://gist.github.com/bob/abcdef1234567890"
      = some "abcdef1234567890" ∧
    GitHubRepoInstaller.get_github_user_repo "https://itunes.apple.com/us/app" = none ∧
    GistInstaller.get_gist_id "https://itunes.apple.com/us/app" = none := by
  refine ⟨by decide, by decide, by decide, by decide, by decide⟩

/-- C9: on `https://gist.github.com/bob/` the gist pattern still matches with
an empty third group, `get_gist_id` returns the empty string, and `download`
raises `InvalidGistURLError` without issuing any network fetch (the fetch
counter stays 0), for every behaviour of the gist API. -/
theorem empty_gist_id_rejected_without_fetch :
    GistInstaller.get_gist_id "https://gist.github.com/bob/" = some "" ∧
    ∀ api : GistApi, GistInstaller.download api "https://gist.github.com/bob/"
      = (.error .invalidGistURL, 0) :=
  ⟨by decide, fun _ => rfl⟩

/-- C9 witness: the theorem applied to a concrete API environment. -/
theorem empty_gist_id_rejected_without_fetch_witness :
    GistInstaller.download (fun _ => some []) "https://gist.github.com/bob/"
      = (.error .invalidGistURL, 0) :=
  empty_gist_id_rejected_without_fetch.2 (fun _ => some [])

/-- C5: for a gist url that resolves to a non-empty id whose metadata the API
returns, gist installation fails with `NoFilesInGistError` when no file has
declared language `Python`, and with `MultipleFilesInGistError` when more
than one does; in both cases the returned filesystem is exactly the input
one (nothing is written under the target folder). -/
theorem gist_install_file_count_policy (api : GistApi)
    (url target_folder gid : String) (files : List GistFile) (fs : FS)
    (hgid : GistInstaller.get_gist_id url = some gid) (hne : gid ≠ "")
    (hapi : api ("https://api.github.com/gists/" ++ gid) = some files) :
    (files.filter (fun f => f.language == some "Python") = [] →
      GistInstaller.install api url target_folder fs = (.error .noFilesInGist, fs)) ∧
    (1 < (files.filter (fun f => f.language == some "Python")).length →
      GistInstaller.install api url target_folder fs
        = (.error .multipleFilesInGist, fs)) := by
  have hbe : (gid == "") = false := by
    simpa using hne
  constructor
  · intro h0
    have hd : GistInstaller.download api url = (.error .noFilesInGist, 1) := by
      simp [GistInstaller.download, hgid, hbe, hapi, h0]
    simp [GistInstaller.install, hd]
  · intro h1
    have hd : GistInstaller.download api url = (.error .multipleFilesInGist, 1) := by
      simp [GistInstaller.download, hgid, hbe, hapi, h1]
    simp [GistInstaller.install, hd]

/-- C5 witness: a gist with an empty file list fails with
`NoFilesInGistError` and leaves the filesystem unchanged. -/
theorem gist_install_file_count_policy_witness :
    GistInstaller.install
      (fun u => if u == "https://api.github.com/gists/ab" then some [] else none)
      "https://gist.github.com/bob/ab" "td" ⟨["td"], []⟩
      = (.error .noFilesInGist, ⟨["td"], []⟩) :=
  (gist_install_file_count_policy
    (fun u => if u == "https://api.github.com/gists/ab" then some [] else none)
    "https://gist.github.com/bob/ab" "td" "ab" [] ⟨["td"], []⟩
    (by decide) (by decide) (by decide)).1 (by decide)

/-- C4 counterexample: on the archive with exactly the entries
`tool-master/`, `tool-master/main.py` and `tool-master/lib/util.py` (and the
target directory present), extraction does NOT produce the two claimed files:
`main.py` is written, but `lib/util.py` fails with an IOError because the
parent directory `lib` is never created — file entries do not create their
parent directories implicitly. -/
theorem extract_without_dir_entry_fails :
    extract_zip "tool-master.zip" "td"
      [("tool-master/", ""), ("tool-master/main.py", "M"),
       ("tool-master/lib/util.py", "U")] ⟨["td"], []⟩
      = (.error .ioError, ⟨["td"], [("td/main.py", "M")]⟩) := by
  rfl

/-- C4 (amended): when the archive also carries the directory-marker entry
`tool-master/lib/`, extraction succeeds and produces exactly
`td/main.py` and `td/lib/util.py` (plus the `td/lib` directory), and no path
in the result contains the `tool-master` wrapper segment. -/
theorem extract_with_dir_entries_strips_wrapper :
    (extract_zip "tool-master.zip" "td"
      [("tool-master/", ""), ("tool-master/main.py", "M"),
       ("tool-master/lib/", ""), ("tool-master/lib/util.py", "U")] ⟨["td"], []⟩
      = (.ok (), ⟨["td", "td/lib"], [("td/main.py", "M"), ("td/lib/util.py", "U")]⟩)) ∧
    (((extract_zip "tool-master.zip" "td"
      [("tool-master/", ""), ("tool-master/main.py", "M"),
       ("tool-master/lib/", ""), ("tool-master/lib/util.py", "U")]
      ⟨["td"], []⟩).2.dirs.all (fun p => !containsSubstr p "tool-master")
     && (extract_zip "tool-master.zip" "td"
      [("tool-master/", ""), ("tool-master/main.py", "M"),
       ("tool-master/lib/", ""), ("tool-master/lib/util.py", "U")]
      ⟨["td"], []⟩).2.files.all (fun f => !containsSubstr f.1 "tool-master")) = true) := by
  exact ⟨rfl, by decide⟩

/-! ## Claims about install/uninstall orchestration -/

/-- C6 counterexample: installing a tool whose url matches neither pattern
(an iTunes link) opens the url externally, but `isInstalled` is TRUE
afterwards, not false — `install` creates the target directory before
dispatching, so the tool is reported as installed. -/
theorem install_unknown_url_marks_installed :
    ((PythonistaToolsInstaller.install (fun _ => none) "Games" "FooApp"
        "https://itunes.apple.com/us/app" ⟨[], []⟩).2.2
      = some "https://itunes.apple.com/us/app") ∧
    (PythonistaToolsInstaller.is_tool_installed
      (PythonistaToolsInstaller.install (fun _ => none) "Games" "FooApp"
        "https://itunes.apple.com/us/app" ⟨[], []⟩).2.1 "Games" "FooApp" = true) := by
  refine ⟨by decide, by decide⟩

/-- C6 (amended): for every url that is falsy under the gist matcher and
unmatched by the repo matcher, `install` opens the url in the external
browser and reports the success HUD, but — because the target directory is
created before dispatch — `is_tool_installed` returns true afterwards. -/
theorem install_unknown_url_opens_browser_and_reports_installed
    (api : GistApi) (c t url : String) (fs : FS)
    (h1 : pyTruthyStrOpt (GistInstaller.get_gist_id url) = false)
    (h2 : GitHubRepoInstaller.get_github_user_repo url = none) :
    (PythonistaToolsInstaller.install api c t url fs).1 = .installedHud ∧
    (PythonistaToolsInstaller.install api c t url fs).2.2 = some url ∧
    PythonistaToolsInstaller.is_tool_installed
      (PythonistaToolsInstaller.install api c t url fs).2.1 c t = true := by
  have hdis : ∀ fs1 : FS,
      PythonistaToolsInstaller.installDispatch api url
        (PythonistaToolsInstaller.get_target_folder c t) fs1
        = (.installedHud, fs1, some url) := by
    intro fs1
    simp [PythonistaToolsInstaller.installDispatch, h1, h2]
  by_cases hex :
      pathExists fs (PythonistaToolsInstaller.get_target_folder c t) = true
  · simp [PythonistaToolsInstaller.install, hex, hdis,
      PythonistaToolsInstaller.is_tool_installed]
  · simp [PythonistaToolsInstaller.install, hex, hdis,
      PythonistaToolsInstaller.is_tool_installed, pathExists_mkdirs_self]

/-- C6 witness: the amended theorem applied to a concrete iTunes link. -/
theorem install_unknown_url_opens_browser_and_reports_installed_witness :
    (PythonistaToolsInstaller.install (fun _ => none) "Docs" "Manual"
      "https://itunes.apple.com/app/id1" ⟨["~"], []⟩).1 = .installedHud ∧
    (PythonistaToolsInstaller.install (fun _ => none) "Docs" "Manual"
      "https://itunes.apple.com/app/id1" ⟨["~"], []⟩).2.2
      = some "https://itunes.apple.com/app/id1" ∧
    PythonistaToolsInstaller.is_tool_installed
      (PythonistaToolsInstaller.install (fun _ => none) "Docs" "Manual"
        "https://itunes.apple.com/app/id1" ⟨["~"], []⟩).2.1 "Docs" "Manual" = true :=
  install_unknown_url_opens_browser_and_reports_installed (fun _ => none)
    "Docs" "Manual" "https://itunes.apple.com/app/id1" ⟨["~"], []⟩
    (by decide) (by decide)

/-- C7: uninstall always reports the success HUD (the target path can only
have been created as a directory, which the hypothesis records); afterwards
`is_tool_installed` is false; and an immediately repeated uninstall leaves
the filesystem untouched and still reports success. -/
theorem uninstall_reports_success_and_clears_state (c t : String) (fs : FS)
    (h : pathExists fs (PythonistaToolsInstaller.get_target_folder c t) = true →
      fs.dirs.contains (PythonistaToolsInstaller.get_target_folder c t) = true) :
    ∃ fs1, PythonistaToolsInstaller.uninstall c t fs = .ok (true, fs1) ∧
      PythonistaToolsInstaller.is_tool_installed fs1 c t = false ∧
      PythonistaToolsInstaller.uninstall c t fs1 = .ok (true, fs1) := by
  by_cases hex :
      pathExists fs (PythonistaToolsInstaller.get_target_folder c t) = true
  · have hc := h hex
    have hrm : rmtree fs (PythonistaToolsInstaller.get_target_folder c t)
        = .ok ⟨fs.dirs.filter
            (fun d => !underPath (PythonistaToolsInstaller.get_target_folder c t) d),
          fs.files.filter
            (fun f => !underPath (PythonistaToolsInstaller.get_target_folder c t) f.1)⟩ := by
      have hmem : PythonistaToolsInstaller.get_target_folder c t ∈ fs.dirs :=
        List.elem_iff.mp hc
      simp [rmtree, hc, hmem]
    have hgone := pathExists_rmtree_self hrm
    refine ⟨⟨fs.dirs.filter
        (fun d => !underPath (PythonistaToolsInstaller.get_target_folder c t) d),
      fs.files.filter
        (fun f => !underPath (PythonistaToolsInstaller.get_target_folder c t) f.1)⟩,
      ?_, ?_, ?_⟩
    · simp [PythonistaToolsInstaller.uninstall, hex, hrm]
    · exact hgone
    · simp [PythonistaToolsInstaller.uninstall, hgone]
  · have hfalse : pathExists fs (PythonistaToolsInstaller.get_target_folder c t) = false :=
      Bool.not_eq_true _ ▸ by simpa using hex
    refine ⟨fs, ?_, ?_, ?_⟩
    · simp [PythonistaToolsInstaller.uninstall, hfalse]
    · simpa [PythonistaToolsInstaller.is_tool_installed] using hfalse
    · simp [PythonistaToolsInstaller.uninstall, hfalse]

/-- C7 witness: the theorem applied to a filesystem holding an installed tool
with one file in its target directory. -/
theorem uninstall_reports_success_and_clears_state_witness :
    ∃ fs1, PythonistaToolsInstaller.uninstall "C" "T"
        ⟨["~", "~/Documents", "~/Documents/bin", "~/Documents/bin/C",
          "~/Documents/bin/C/T"],
         [("~/Documents/bin/C/T/x.py", "data")]⟩ = .ok (true, fs1) ∧
      PythonistaToolsInstaller.is_tool_installed fs1 "C" "T" = false ∧
      PythonistaToolsInstaller.uninstall "C" "T" fs1 = .ok (true, fs1) :=
  uninstall_reports_success_and_clears_state "C" "T"
    ⟨["~", "~/Documents", "~/Documents/bin", "~/Documents/bin/C",
      "~/Documents/bin/C/T"],
     [("~/Documents/bin/C/T/x.py", "data")]⟩ (fun _ => by decide)

end PTInstaller
